import Mathlib

/-!
Monster Merge: Chaos Arena — verification of the simulation core.

A shallow embedding of the entity-component simulation core
(`src/lib/systems/combat.ts`, `src/lib/systems/spawn.ts`,
`src/lib/queries.ts`, `src/lib/game.ts`) in Lean 4, together with proofs
about the combat, health and spawn systems.

Modelling conventions:
* JavaScript numbers are modelled as exact rationals (`ℚ`); entity ids are `Nat`.
* The bitecs world (global component arrays plus the custom fields the game
  attaches to it) is one `World` structure; each component array becomes a
  map `Nat → Option C`, a tag component becomes a map `Nat → Bool`.
* `Math.sqrt`, `Math.atan2`, `Math.cos` and `Math.sin` are opaque to the
  simulation logic; they are passed in as a `MathOps` record of functions
  over `ℚ`, so every system stays a computable function.
* `Math.random()` is modelled as consuming a supplied list of rolls.
* bitecs queries return each matching live entity once, in a stable order;
  they are modelled as filters over the world's ordered list of live
  entities.
-/

/-- `Position{x,y}` component (world coordinates). -/
structure PositionC where
  x : ℚ
  y : ℚ
deriving DecidableEq, Repr

/-- `Velocity{x,y}` component. -/
structure VelocityC where
  x : ℚ
  y : ℚ
deriving DecidableEq, Repr

/-- `Health{current,max}` component. -/
structure HealthC where
  current : ℚ
  max : ℚ
deriving DecidableEq, Repr

/-- `Attack{damage,range,cooldown,timer}` component. -/
structure AttackC where
  damage : ℚ
  range : ℚ
  cooldown : ℚ
  timer : ℚ
deriving DecidableEq, Repr

/-- `Knockback{force,direction,remaining}` component. -/
structure KnockbackC where
  force : ℚ
  direction : ℚ
  remaining : ℚ
deriving DecidableEq, Repr

/-- `Monster{type,level}` component; the runtime type index is an integer. -/
structure MonsterC where
  mtype : ℤ
  level : ℤ
deriving DecidableEq, Repr

/-- `Collider{radius,isTrigger}` component. -/
structure ColliderC where
  radius : ℚ
  isTrigger : Bool
deriving DecidableEq, Repr

/-- `AI{state,targetEntity,detectionRange,decisionTimer}` component. -/
structure AIC where
  state : ℤ
  targetEntity : Nat
  detectionRange : ℚ
  decisionTimer : ℚ
deriving DecidableEq, Repr

/-- `Sprite{typeId,animationFrame,scale,rotation,opacity}` component. -/
structure SpriteC where
  typeId : ℤ
  animationFrame : ℚ
  scale : ℚ
  rotation : ℚ
  opacity : ℚ
deriving DecidableEq, Repr

/-- Events pushed onto `world.events` by the systems under study. -/
inductive GameEvent where
  | monsterDamaged (entity : Nat) (attacker : Nat) (damage : ℚ) (position : PositionC)
  | monsterSpawned (entity : Nat) (position : PositionC) (mtype : ℤ) (level : ℤ)
      (isPlayer : Bool)
deriving DecidableEq, Repr

/-- The `GameConfig` record (`src/lib/game.ts`). -/
structure GameConfig where
  arenaWidth : ℚ
  arenaHeight : ℚ
  baseSpawnInterval : ℚ
  monsterTypes : ℕ
  maxLevel : ℕ
  initialPlayerMonsters : ℕ
deriving DecidableEq, Repr

/-- `DEFAULT_CONFIG` from `src/lib/game.ts`. -/
def DEFAULT_CONFIG : GameConfig :=
  { arenaWidth := 800
    arenaHeight := 600
    baseSpawnInterval := 3
    monsterTypes := 4
    maxLevel := 10
    initialPlayerMonsters := 1 }

/-- The bitecs `GameWorld`: the ordered list of live entities, one map per
component array, and the custom per-world fields installed by `Game`'s
constructor (`time`, `delta`, `config`, `events`, `deadEntities`,
`entitiesToRemove`, `playerEntities`, `spawnTimer`).  `nextEntity` models
the bitecs entity id allocator. -/
structure World where
  entities : List Nat
  nextEntity : Nat
  position : Nat → Option PositionC
  velocity : Nat → Option VelocityC
  health : Nat → Option HealthC
  attack : Nat → Option AttackC
  defense : Nat → Option ℚ
  knockback : Nat → Option KnockbackC
  monster : Nat → Option MonsterC
  mergeable : Nat → Option ℤ
  collider : Nat → Option ColliderC
  ai : Nat → Option AIC
  sprite : Nat → Option SpriteC
  playerControlled : Nat → Bool
  enemy : Nat → Bool
  overlap : Nat → Bool
  time : ℚ
  delta : ℚ
  events : List GameEvent
  deadEntities : List Nat
  entitiesToRemove : List Nat
  playerEntities : List Nat
  spawnTimer : ℚ
  config : GameConfig

/-- Point update of a component map (`Component.field[entity] = value`). -/
def upd {α : Type} (f : Nat → Option α) (e : Nat) (v : α) : Nat → Option α :=
  fun i => if i = e then some v else f i

@[simp] theorem upd_self {α : Type} (f : Nat → Option α) (e : Nat) (v : α) :
    upd f e v e = some v := by
  simp [upd]

@[simp] theorem upd_other {α : Type} (f : Nat → Option α) (e : Nat) (v : α)
    (i : Nat) (h : i ≠ e) : upd f e v i = f i := by
  simp [upd, h]

/-- Point update of a tag map. -/
def updTag (f : Nat → Bool) (e : Nat) (v : Bool) : Nat → Bool :=
  fun i => if i = e then v else f i

@[simp] theorem updTag_self (f : Nat → Bool) (e : Nat) (v : Bool) :
    updTag f e v e = v := by
  simp [updTag]

@[simp] theorem updTag_other (f : Nat → Bool) (e : Nat) (v : Bool)
    (i : Nat) (h : i ≠ e) : updTag f e v i = f i := by
  simp [updTag, h]

/-- `attackerQuery = defineQuery([Position, Attack])` (`src/lib/queries.ts`). -/
def attackerQuery (w : World) : List Nat :=
  w.entities.filter (fun e => (w.position e).isSome && (w.attack e).isSome)

/-- `damageableQuery = defineQuery([Position, Health])` (`src/lib/queries.ts`). -/
def damageableQuery (w : World) : List Nat :=
  w.entities.filter (fun e => (w.position e).isSome && (w.health e).isSome)

/-- `healthQuery = defineQuery([Health])` (`src/lib/queries.ts`). -/
def healthQuery (w : World) : List Nat :=
  w.entities.filter (fun e => (w.health e).isSome)

/-- `knockbackQuery = defineQuery([Position, Knockback])` (`src/lib/queries.ts`). -/
def knockbackQuery (w : World) : List Nat :=
  w.entities.filter (fun e => (w.position e).isSome && (w.knockback e).isSome)

/-- The real-valued math primitives used by the combat systems
(`Math.sqrt`, `Math.atan2`, `Math.cos`, `Math.sin`), abstracted as
functions over `ℚ` and threaded through the systems that call them. -/
structure MathOps where
  sqrt : ℚ → ℚ
  atan2 : ℚ → ℚ → ℚ
  cos : ℚ → ℚ
  sin : ℚ → ℚ

/-- One iteration of the cooldown-decay loop of `attackSystem`
(`combat.ts` lines 12–19): decrement `Attack.timer` by `delta`, but only
when the timer is currently positive. -/
def decayStep (delta : ℚ) (w : World) (a : Nat) : World :=
  match w.attack a with
  | some atk =>
      if atk.timer > 0 then
        { w with attack := upd w.attack a { atk with timer := atk.timer - delta } }
      else w
  | none => w

/-- The full cooldown-decay pass of `attackSystem` over the attacker query. -/
def decayPass (w : World) : World :=
  (attackerQuery w).foldl (decayStep w.delta) w

/-- The inner target-scan loop of `attackSystem` (`combat.ts` lines 33–48):
walk the damageable list in order, skip the attacker itself, and return the
first entity whose Euclidean distance to the attacker is `≤ range`. -/
def findTarget (ops : MathOps) (pos : Nat → Option PositionC) (attacker : Nat)
    (ax ay range : ℚ) : List Nat → Option Nat
  | [] => none
  | t :: ts =>
      if t = attacker then findTarget ops pos attacker ax ay range ts
      else
        match pos t with
        | some p =>
            if ops.sqrt ((p.x - ax) * (p.x - ax) + (p.y - ay) * (p.y - ay)) ≤ range then
              some t
            else findTarget ops pos attacker ax ay range ts
        | none => findTarget ops pos attacker ax ay range ts

/-- The strike body of `attackSystem` (`combat.ts` lines 48–77): subtract
`Attack.damage` from the target's health, attach/refresh `Knockback` with
`force = damage*10`, `direction = atan2(dy,dx)`, `remaining = 0.2`, reset the
attacker's timer to `Attack.cooldown`, and push a `MONSTER_DAMAGED` event
carrying the target, the attacker, the damage and the target's position. -/
def strike (ops : MathOps) (w : World) (a t : Nat) : World :=
  match w.attack a, w.position a, w.position t, w.health t with
  | some atk, some ap, some tp, some th =>
      let dx := tp.x - ap.x
      let dy := tp.y - ap.y
      let w1 := { w with health := upd w.health t ⟨th.current - atk.damage, th.max⟩ }
      let w2 := { w1 with knockback :=
          (upd w1.knockback t ⟨atk.damage * 10, ops.atan2 dy dx, 1/5⟩) }
      let w3 := { w2 with attack := upd w2.attack a { atk with timer := atk.cooldown } }
      { w3 with events :=
          (w3.events ++ [GameEvent.monsterDamaged t a atk.damage tp]) }
  | _, _, _, _ => w

/-- One iteration of the resolution loop of `attackSystem` (`combat.ts`
lines 22–80): skip the attacker if its timer is still positive, otherwise
strike the first in-range entry of the damageable list. -/
def attackStep (ops : MathOps) (targets : List Nat) (w : World) (a : Nat) : World :=
  match w.attack a, w.position a with
  | some atk, some p =>
      if atk.timer > 0 then w
      else
        match findTarget ops w.position a p.x p.y atk.range targets with
        | some t => strike ops w a t
        | none => w
  | _, _ => w

/-- `attackSystem` (`combat.ts` lines 6–83): capture the attacker and
damageable queries, run the cooldown-decay pass, then the resolution pass. -/
def attackSystem (ops : MathOps) (w : World) : World :=
  (attackerQuery w).foldl (attackStep ops (damageableQuery w)) (decayPass w)

/-- One iteration of `knockbackSystem`'s loop (`combat.ts` lines 89–111):
always decrement `Knockback.remaining` by `delta`; while the decremented
remaining is still positive, displace the position by
`(cos dir, sin dir) * force * delta` and multiply the force by `0.9`. -/
def knockbackStep (ops : MathOps) (delta : ℚ) (w : World) (e : Nat) : World :=
  match w.knockback e with
  | some kb =>
      let kb1 : KnockbackC := { kb with remaining := kb.remaining - delta }
      let w1 := { w with knockback := upd w.knockback e kb1 }
      if kb1.remaining > 0 then
        match w1.position e with
        | some p =>
            let vx := ops.cos kb1.direction * kb1.force
            let vy := ops.sin kb1.direction * kb1.force
            let w2 := { w1 with position :=
                (upd w1.position e ⟨p.x + vx * delta, p.y + vy * delta⟩) }
            { w2 with knockback :=
                (upd w2.knockback e { kb1 with force := kb1.force * (9/10) }) }
        | none => w1
      else w1
  | none => w

/-- `knockbackSystem` (`combat.ts` lines 85–114). -/
def knockbackSystem (ops : MathOps) (w : World) : World :=
  (knockbackQuery w).foldl (knockbackStep ops w.delta) w

/-- Whether the health component of `e` in `w` marks it dead
(`Health.current[entity] <= 0`, `combat.ts` line 124). -/
def deadB (w : World) (e : Nat) : Bool :=
  match w.health e with
  | some h => decide (h.current ≤ 0)
  | none => false

/-- The collection loop of `healthSystem` (`combat.ts` lines 120–127):
push every health-bearing entity with `current ≤ 0` onto
`world.deadEntities`. -/
def collectDead (w : World) : List Nat → World
  | [] => w
  | e :: rest =>
      collectDead
        (if deadB w e then { w with deadEntities := w.deadEntities ++ [e] } else w)
        rest

/-- bitecs `removeEntity`: drop the entity from the live list and strip all
its components.  It knows nothing about the game-specific
`world.playerEntities` list, which it leaves untouched. -/
def removeEntity (w : World) (e : Nat) : World :=
  { w with
    entities := w.entities.filter (fun i => i != e)
    position := fun i => if i = e then none else w.position i
    velocity := fun i => if i = e then none else w.velocity i
    health := fun i => if i = e then none else w.health i
    attack := fun i => if i = e then none else w.attack i
    defense := fun i => if i = e then none else w.defense i
    knockback := fun i => if i = e then none else w.knockback i
    monster := fun i => if i = e then none else w.monster i
    mergeable := fun i => if i = e then none else w.mergeable i
    collider := fun i => if i = e then none else w.collider i
    ai := fun i => if i = e then none else w.ai i
    sprite := fun i => if i = e then none else w.sprite i
    playerControlled := fun i => if i = e then false else w.playerControlled i
    enemy := fun i => if i = e then false else w.enemy i
    overlap := fun i => if i = e then false else w.overlap i }

/-- Remove each entity of a list in turn. -/
def removeAll (w : World) : List Nat → World
  | [] => w
  | e :: rest => removeAll (removeEntity w e) rest

/-- `healthSystem` (`combat.ts` lines 116–138): collect every dead
health-bearing entity into `world.deadEntities`, then drain that queue as a
stack (`pop()` takes from the end), removing each popped entity, until the
queue is empty. -/
def healthSystem (w : World) : World :=
  let w1 := collectDead w (healthQuery w)
  let w2 := removeAll w1 w1.deadEntities.reverse
  { w2 with deadEntities := [] }

/-- The per-type stat record of `src/lib/systems/spawn.ts`
(`health`, `attack`, `defense`, `speed`, `radius`); `calculateMonsterStats`
floors every entry, so scaled stats are integers. -/
structure MonsterStats where
  health : ℤ
  attack : ℤ
  defense : ℤ
  speed : ℤ
  radius : ℤ
deriving DecidableEq, Repr

/-- `BASE_MONSTER_STATS` (`spawn.ts` lines 29–58), keyed by the runtime
monster-type index (FIRE = 0, WATER = 1, EARTH = 2, AIR = 3).  An index
outside the table yields `none`, the model of the `undefined` lookup that
makes `calculateMonsterStats` throw. -/
def BASE_MONSTER_STATS (mtype : ℤ) : Option MonsterStats :=
  if mtype = 0 then some ⟨100, 15, 5, 120, 25⟩
  else if mtype = 1 then some ⟨120, 10, 10, 100, 25⟩
  else if mtype = 2 then some ⟨150, 8, 15, 80, 25⟩
  else if mtype = 3 then some ⟨80, 12, 8, 140, 25⟩
  else none

/-- `calculateMonsterStats` (`spawn.ts` lines 61–72): scale the base stats
of the type with the fixed per-stat level curves and floor each result.
`none` models the `TypeError` thrown on an unknown type index. -/
def calculateMonsterStats (mtype level : ℤ) : Option MonsterStats :=
  (BASE_MONSTER_STATS mtype).map (fun b =>
    { health := ⌊(b.health : ℚ) * (1 + ((level : ℚ) - 1) * (1/2))⌋
      attack := ⌊(b.attack : ℚ) * (1 + ((level : ℚ) - 1) * (3/10))⌋
      defense := ⌊(b.defense : ℚ) * (1 + ((level : ℚ) - 1) * (3/10))⌋
      speed := ⌊(b.speed : ℚ) * (1 + ((level : ℚ) - 1) * (1/10))⌋
      radius := ⌊(b.radius : ℚ) * (1 + ((level : ℚ) - 1) * (1/5))⌋ })

/-- bitecs `addEntity`: allocate a fresh id and append it to the live list. -/
def addEntity (w : World) : World × Nat :=
  ({ w with entities := w.entities ++ [w.nextEntity], nextEntity := w.nextEntity + 1 },
    w.nextEntity)

/-- `createPlayerMonster` (`spawn.ts` lines 77–148).  The entity id is
allocated first, exactly as in the source; `Except.error` models the
`TypeError` thrown by the stats lookup on an unknown type index and carries
the world as already mutated at the throw point (the fresh id is already
allocated).  On success the full component set is installed, the id is
pushed onto `world.playerEntities` and a `MONSTER_SPAWNED` event is pushed. -/
def createPlayerMonster (w : World) (x y : ℚ) (mtype level : ℤ) :
    Except World (World × Nat) :=
  let a := addEntity w
  let w0 := a.1
  let entity := a.2
  match calculateMonsterStats mtype level with
  | none => Except.error w0
  | some stats =>
      let w1 := { w0 with position := upd w0.position entity ⟨x, y⟩ }
      let w2 := { w1 with velocity := upd w1.velocity entity ⟨0, 0⟩ }
      let w3 := { w2 with health :=
          (upd w2.health entity ⟨(stats.health : ℚ), (stats.health : ℚ)⟩) }
      let w4 := { w3 with attack :=
          (upd w3.attack entity ⟨(stats.attack : ℚ), (stats.radius : ℚ) * (3/2), 1, 0⟩) }
      let w5 := { w4 with defense := upd w4.defense entity (stats.defense : ℚ) }
      let w6 := { w5 with monster := upd w5.monster entity ⟨mtype, level⟩ }
      let w7 := { w6 with mergeable := upd w6.mergeable entity 1 }
      let w8 := { w7 with collider :=
          (upd w7.collider entity ⟨(stats.radius : ℚ), false⟩) }
      let w9 := { w8 with sprite := upd w8.sprite entity ⟨mtype, 0, 1, 0, 1⟩ }
      let w10 := { w9 with playerControlled := updTag w9.playerControlled entity true }
      let w11 := { w10 with playerEntities := w10.playerEntities ++ [entity] }
      let w12 := { w11 with events :=
          (w11.events ++ [GameEvent.monsterSpawned entity ⟨x, y⟩ mtype level true]) }
      Except.ok (w12, entity)

/-- `createEnemyMonster` (`spawn.ts` lines 153–228): like
`createPlayerMonster` but `Mergeable.canMerge = 0`, an `AI` component in the
Idle state with `detectionRange = radius*5`, the `Enemy` tag instead of
`PlayerControlled`, no `playerEntities` push, and `isPlayer = false` in the
spawn event. -/
def createEnemyMonster (w : World) (x y : ℚ) (mtype level : ℤ) :
    Except World (World × Nat) :=
  let a := addEntity w
  let w0 := a.1
  let entity := a.2
  match calculateMonsterStats mtype level with
  | none => Except.error w0
  | some stats =>
      let w1 := { w0 with position := upd w0.position entity ⟨x, y⟩ }
      let w2 := { w1 with velocity := upd w1.velocity entity ⟨0, 0⟩ }
      let w3 := { w2 with health :=
          (upd w2.health entity ⟨(stats.health : ℚ), (stats.health : ℚ)⟩) }
      let w4 := { w3 with attack :=
          (upd w3.attack entity ⟨(stats.attack : ℚ), (stats.radius : ℚ) * (3/2), 1, 0⟩) }
      let w5 := { w4 with defense := upd w4.defense entity (stats.defense : ℚ) }
      let w6 := { w5 with monster := upd w5.monster entity ⟨mtype, level⟩ }
      let w7 := { w6 with mergeable := upd w6.mergeable entity 0 }
      let w8 := { w7 with collider :=
          (upd w7.collider entity ⟨(stats.radius : ℚ), false⟩) }
      let w9 := { w8 with sprite := upd w8.sprite entity ⟨mtype, 0, 1, 0, 1⟩ }
      let w10 := { w9 with ai :=
          (upd w9.ai entity ⟨0, 0, (stats.radius : ℚ) * 5, 0⟩) }
      let w11 := { w10 with enemy := updTag w10.enemy entity true }
      let w12 := { w11 with events :=
          (w11.events ++ [GameEvent.monsterSpawned entity ⟨x, y⟩ mtype level false]) }
      Except.ok (w12, entity)

/-- Draw the next `Math.random()` roll from the supplied stream. -/
def randNext (rng : List ℚ) : ℚ × List ℚ :=
  match rng with
  | [] => (0, [])
  | r :: rest => (r, rest)

/-- The level chosen by `spawnSystem`'s weighted roll (`spawn.ts` lines
261–268): `roll > 0.95 → 3`, `roll > 0.8 → 2`, otherwise `1`. -/
def spawnLevel (roll : ℚ) : ℤ :=
  if roll > 19/20 then 3 else if roll > 4/5 then 2 else 1

/-- `spawnSystem` (`spawn.ts` lines 233–275): count `world.spawnTimer` down
by `delta`; when it reaches `≤ 0`, reset it to
`baseSpawnInterval * (0.8 + random()*0.4)`, pick an edge spawn point, pick
the type as `Math.floor(Math.random() * 4)` (a hard-coded 4, independent of
`config.monsterTypes`), pick the level by the weighted roll, and create one
enemy monster.  `none` models a `TypeError` propagating out of
`createEnemyMonster` (impossible while rolls stay in `[0,1)`). -/
def spawnSystem (rng : List ℚ) (w : World) : Option (World × List ℚ) :=
  let wt := { w with spawnTimer := w.spawnTimer - w.delta }
  if wt.spawnTimer ≤ (0 : ℚ) then
    let d1 := randNext rng
    let wr := { wt with spawnTimer :=
        (wt.config.baseSpawnInterval * (4/5 + d1.1 * (2/5))) }
    let d2 := randNext d1.2
    let pos :=
      if d2.1 < 1/2 then
        let d3 := randNext d2.2
        let d4 := randNext d3.2
        ((d3.1 * wr.config.arenaWidth,
          if d4.1 < 1/2 then (20 : ℚ) else wr.config.arenaHeight - 20), d4.2)
      else
        let d3 := randNext d2.2
        let d4 := randNext d3.2
        (((if d3.1 < 1/2 then (20 : ℚ) else wr.config.arenaWidth - 20),
          d4.1 * wr.config.arenaHeight), d4.2)
    let d5 := randNext pos.2
    let mtype : ℤ := ⌊d5.1 * 4⌋
    let d6 := randNext d5.2
    let level := spawnLevel d6.1
    match createEnemyMonster wr pos.1.1 pos.1.2 mtype level with
    | Except.ok res => some (res.1, d6.2)
    | Except.error _ => none
  else some (wt, rng)

/-- `Game.createPlayerMonster` (`game.ts` lines 155–157): the public
interface method delegates straight to `createPlayerMonster` with no input
validation, hard-coding `level = 1`. -/
def Game_createPlayerMonster (w : World) (x y : ℚ) (mtype : ℤ) :
    Except World (World × Nat) :=
  createPlayerMonster w x y mtype 1


/-! Concrete worlds used to instantiate the theorems. -/

/-- The freshly constructed world of `Game`'s constructor with the default
configuration, before `initializePlayerMonsters`: no entities, empty work
queues, `spawnTimer = baseSpawnInterval`. -/
def emptyW : World :=
  { entities := []
    nextEntity := 0
    position := fun _ => none
    velocity := fun _ => none
    health := fun _ => none
    attack := fun _ => none
    defense := fun _ => none
    knockback := fun _ => none
    monster := fun _ => none
    mergeable := fun _ => none
    collider := fun _ => none
    ai := fun _ => none
    sprite := fun _ => none
    playerControlled := fun _ => false
    enemy := fun _ => false
    overlap := fun _ => false
    time := 0
    delta := 1/10
    events := []
    deadEntities := []
    entitiesToRemove := []
    playerEntities := []
    spawnTimer := 3
    config := DEFAULT_CONFIG }

/-- Concrete math primitives used to instantiate theorems whose statements
quantify over `MathOps`: a square root that is exact on the inputs the
witnesses reach, and an `atan2` that is `0` on the positive x-axis. -/
def testOps : MathOps :=
  { sqrt := fun q => if q = 25 then 5 else 0
    atan2 := fun y x => if y = 0 ∧ 0 < x then 0 else 1
    cos := fun _ => 0
    sin := fun _ => 0 }

/-! Basic facts about `healthSystem` (claims C1 and C7). -/

@[simp] theorem deadB_set_deadEntities (w : World) (l : List Nat) :
    deadB { w with deadEntities := l } = deadB w := rfl

theorem collectDead_eq (l : List Nat) : ∀ (w : World),
    collectDead w l = { w with deadEntities := w.deadEntities ++ l.filter (deadB w) } := by
  induction l with
  | nil => intro w; simp [collectDead]
  | cons e rest ih =>
      intro w
      by_cases h : deadB w e
      · simp only [collectDead, h, if_pos, List.filter_cons]
        rw [ih]
        simp [h, List.append_assoc]
      · simp only [collectDead, h, if_neg, List.filter_cons]
        rw [ih]
        simp [h]

theorem removeAll_playerEntities (l : List Nat) : ∀ (w : World),
    (removeAll w l).playerEntities = w.playerEntities := by
  induction l with
  | nil => intro w; simp [removeAll]
  | cons e rest ih => intro w; simp [removeAll, ih, removeEntity]

theorem removeAll_deadEntities (l : List Nat) : ∀ (w : World),
    (removeAll w l).deadEntities = w.deadEntities := by
  induction l with
  | nil => intro w; simp [removeAll]
  | cons e rest ih => intro w; simp [removeAll, ih, removeEntity]

theorem removeAll_entities (l : List Nat) : ∀ (w : World),
    (removeAll w l).entities = w.entities.filter (fun e => !(l.contains e)) := by
  induction l with
  | nil => intro w; simp [removeAll]
  | cons b rest ih =>
      intro w
      rw [removeAll, ih]
      simp only [removeEntity, List.filter_filter]
      apply List.filter_congr
      intro e _
      by_cases hb : e = b
      · simp [hb, List.contains_cons]
      · simp [hb, Ne.symm hb, List.contains_cons]

theorem removeAll_health (l : List Nat) : ∀ (w : World) (e : Nat),
    (removeAll w l).health e = if l.contains e then none else w.health e := by
  induction l with
  | nil => intro w e; simp [removeAll]
  | cons b rest ih =>
      intro w e
      rw [removeAll, ih]
      by_cases hb : e = b
      · subst hb
        simp [removeEntity, List.contains_cons]
      · simp [removeEntity, hb, List.contains_cons, Ne.symm hb]

/-- C1 amended: `healthSystem` never touches `world.playerEntities` (bitecs
`removeEntity` knows nothing about that game-specific list), so stale ids of
removed entities may remain in it and use sites must liveness-check. -/
theorem healthSystem_playerEntities (w : World) :
    (healthSystem w).playerEntities = w.playerEntities := by
  unfold healthSystem
  rw [removeAll_playerEntities, collectDead_eq]

theorem deadB_isSome {w : World} {e : Nat} (h : deadB w e = true) :
    (w.health e).isSome = true := by
  unfold deadB at h
  cases hh : w.health e with
  | none => rw [hh] at h; simp at h
  | some hc => simp

/-- Membership characterization of one `healthSystem` run, starting from a
drained `deadEntities` queue: exactly the health-bearing entities with
`current ≤ 0` are removed from the live list. -/
theorem healthSystem_entities (w : World) (h : w.deadEntities = []) :
    (healthSystem w).entities = w.entities.filter (fun e => !(deadB w e)) := by
  unfold healthSystem
  rw [collectDead_eq, h, removeAll_entities]
  simp only [List.nil_append]
  apply List.filter_congr
  intro e he
  by_cases hd : deadB w e
  · have hmem : e ∈ (healthQuery w).filter (deadB w) := by
      refine List.mem_filter.mpr ⟨?_, hd⟩
      exact List.mem_filter.mpr ⟨he, deadB_isSome hd⟩
    simp [List.elem_eq_mem, List.mem_reverse, hd, hmem]
  · have hmem : e ∉ (healthQuery w).filter (deadB w) := by
      intro hc
      exact hd ((List.mem_filter.mp hc).2)
    simp [List.elem_eq_mem, List.mem_reverse, hd, hmem]

theorem healthSystem_deadEntities (w : World) :
    (healthSystem w).deadEntities = [] := rfl

theorem healthSystem_health (w : World) (h : w.deadEntities = []) (e : Nat) :
    (healthSystem w).health e =
      if deadB w e ∧ e ∈ w.entities then none else w.health e := by
  unfold healthSystem
  rw [collectDead_eq, h, removeAll_health]
  simp only [List.nil_append]
  by_cases hd : deadB w e
  · by_cases he : e ∈ w.entities
    · have hmem : e ∈ (healthQuery w).filter (deadB w) :=
        List.mem_filter.mpr ⟨List.mem_filter.mpr ⟨he, deadB_isSome hd⟩, hd⟩
      simp [List.elem_eq_mem, List.mem_reverse, hd, he, hmem]
    · have hmem : e ∉ (healthQuery w).filter (deadB w) := by
        intro hc
        exact he (List.mem_filter.mp ((List.mem_filter.mp hc).1)).1
      simp [List.elem_eq_mem, List.mem_reverse, hd, he, hmem]
  · have hmem : e ∉ (healthQuery w).filter (deadB w) := by
      intro hc
      exact hd ((List.mem_filter.mp hc).2)
    simp [List.elem_eq_mem, List.mem_reverse, hd, hmem]

/-- `healthSystem` is the identity on a world with no dead entity and a
drained `deadEntities` queue. -/
theorem healthSystem_fixpoint (w : World)
    (hnod : ∀ e ∈ healthQuery w, deadB w e = false) (h : w.deadEntities = []) :
    healthSystem w = w := by
  unfold healthSystem
  rw [collectDead_eq, h]
  have hfil : (healthQuery w).filter (deadB w) = [] :=
    List.filter_eq_nil_iff.mpr (fun e he => by simp [hnod e he])
  rw [hfil]
  simp only [List.append_nil, List.nil_append, List.reverse_nil]
  rw [show removeAll { w with deadEntities := ([] : List Nat) } [] =
      { w with deadEntities := ([] : List Nat) } from rfl]
  rw [← h]

/-- Running `healthSystem` twice in a row with no intervening damage is the
same as running it once. -/
theorem healthSystem_idem (w : World) (h : w.deadEntities = []) :
    healthSystem (healthSystem w) = healthSystem w := by
  apply healthSystem_fixpoint
  · intro e he
    have he1 : e ∈ (healthSystem w).entities := (List.mem_filter.mp he).1
    rw [healthSystem_entities w h] at he1
    obtain ⟨hew, hnd⟩ := List.mem_filter.mp he1
    have hdB : deadB w e = false := by simpa using hnd
    have hh : (healthSystem w).health e = w.health e := by
      rw [healthSystem_health w h e]
      simp [hdB]
    unfold deadB
    rw [hh]
    have h2 := hdB
    unfold deadB at h2
    exact h2
  · exact healthSystem_deadEntities w

/-- World with a single player-controlled entity `1` whose health has
reached `0`, listed in `playerEntities`. -/
def W1 : World :=
  { emptyW with
    entities := [1]
    nextEntity := 2
    position := fun i => if i = 1 then some ⟨3, 4⟩ else none
    health := fun i => if i = 1 then some ⟨0, 100⟩ else none
    playerControlled := fun i => i == 1
    playerEntities := [1] }

/-- C1 counterexample: the health system removes the dead player entity `1`
from the world but leaves its id in `world.playerEntities`, so after the
run `playerEntities` holds an id that refers to no live entity. -/
theorem healthSystem_stale_player_id :
    W1.playerEntities = [1] ∧ deadB W1 1 = true ∧
    (healthSystem W1).entities = [] ∧ (healthSystem W1).playerEntities = [1] := by
  refine ⟨rfl, ?_, ?_, ?_⟩ <;>
    norm_num [healthSystem, collectDead, deadB, healthQuery, removeAll, removeEntity,
      W1, emptyW]

/-- C7: one `healthSystem` run (from a drained `deadEntities` queue, the
state every run leaves behind) removes exactly the health-bearing entities
with `current ≤ 0` from the live list, leaves `deadEntities` empty, and a
second run with no new damage changes nothing. -/
theorem healthSystem_removes_exactly_dead (w : World) (h : w.deadEntities = []) :
    (healthSystem w).entities = w.entities.filter (fun e => !(deadB w e)) ∧
    (healthSystem w).deadEntities = [] ∧
    healthSystem (healthSystem w) = healthSystem w :=
  ⟨healthSystem_entities w h, healthSystem_deadEntities w, healthSystem_idem w h⟩

/-- World with a healthy entity `0`, a dead entity `1` and a health-less
entity `2`, used to instantiate `healthSystem_removes_exactly_dead`. -/
def W7 : World :=
  { emptyW with
    entities := [0, 1, 2]
    nextEntity := 3
    position := fun i => if i ≤ 2 then some ⟨(i : ℚ), 0⟩ else none
    health := fun i =>
      if i = 0 then some ⟨50, 50⟩ else if i = 1 then some ⟨0, 100⟩ else none }

theorem healthSystem_removes_exactly_dead_witness :
    W7.deadEntities = [] ∧
    ((healthSystem W7).entities = W7.entities.filter (fun e => !(deadB W7 e)) ∧
     (healthSystem W7).deadEntities = [] ∧
     healthSystem (healthSystem W7) = healthSystem W7) :=
  ⟨rfl, healthSystem_removes_exactly_dead W7 rfl⟩

/-! The cooldown-decay pass of `attackSystem` (claim C2). -/

theorem decayStep_attack_ne (delta : ℚ) (w : World) (a e : Nat) (h : e ≠ a) :
    (decayStep delta w a).attack e = w.attack e := by
  unfold decayStep
  cases w.attack a with
  | none => rfl
  | some atk =>
      by_cases ht : atk.timer > 0
      · simp [ht, h]
      · simp [ht]

theorem decayFold_attack_not_mem (delta : ℚ) (a : Nat) :
    ∀ (l : List Nat), a ∉ l → ∀ (w : World),
    (l.foldl (decayStep delta) w).attack a = w.attack a := by
  intro l
  induction l with
  | nil => intro _ w; rfl
  | cons b rest ih =>
      intro hnm w
      rw [List.foldl_cons, ih (fun hc => hnm (List.mem_cons_of_mem b hc))]
      exact decayStep_attack_ne delta w b a (fun hc => hnm (hc ▸ List.mem_cons_self b rest))

theorem decayFold_attack_mem (delta : ℚ) (a : Nat) :
    ∀ (l : List Nat), l.Nodup → a ∈ l → ∀ (w : World) (atk : AttackC),
    w.attack a = some atk →
    (l.foldl (decayStep delta) w).attack a =
      some { atk with timer := if atk.timer > 0 then atk.timer - delta else atk.timer } := by
  intro l
  induction l with
  | nil => intro _ hmem; exact absurd hmem (List.not_mem_nil a)
  | cons b rest ih =>
      intro hnd hmem w atk hatk
      obtain ⟨hbr, hndr⟩ := List.nodup_cons.mp hnd
      rw [List.foldl_cons]
      by_cases hab : a = b
      · subst hab
        rw [decayFold_attack_not_mem delta a rest hbr]
        unfold decayStep
        rw [hatk]
        by_cases ht : atk.timer > 0
        · simp [ht]
        · simp only [ht, if_neg, if_false]
          exact hatk
      · have hmr : a ∈ rest := by
          rcases List.mem_cons.mp hmem with hc | hc
          · exact absurd hc hab
          · exact hc
        exact ih hndr hmr (decayStep delta w b) atk
          ((decayStep_attack_ne delta w b a hab).trans hatk)

/-- C2 amended: in the cooldown-decay pass of `attackSystem`, an attacker's
`Attack.timer` is decremented by `world.delta` only when it is currently
positive (a timer already `≤ 0` is left unchanged); when it is decremented
no lower bound is applied, so it may go negative. -/
theorem decayPass_timer_conditional (w : World) (hnd : w.entities.Nodup) (a : Nat)
    (ha : a ∈ attackerQuery w) (atk : AttackC) (hatk : w.attack a = some atk) :
    (decayPass w).attack a =
      some { atk with timer := if atk.timer > 0 then atk.timer - w.delta else atk.timer } :=
  decayFold_attack_mem w.delta a (attackerQuery w) (hnd.filter _) ha w atk hatk

/-- World with one attacker (entity `0`) whose timer is exactly `0`, and a
second attacker (entity `1`) with a positive timer smaller than `delta`. -/
def W2 : World :=
  { emptyW with
    entities := [0, 1]
    nextEntity := 2
    position := fun i => if i ≤ 1 then some ⟨(i : ℚ), 0⟩ else none
    attack := fun i =>
      if i = 0 then some ⟨5, 10, 1, 0⟩
      else if i = 1 then some ⟨5, 10, 1, 1/20⟩ else none }

/-- C2 counterexample: with `delta = 1/10`, attacker `0` whose timer is `0`
keeps timer `0` after the decay pass — it does not decrease by `delta` (which
would give `-1/10`).  Attacker `1` (timer `1/20 > 0`) does decrease by the
full `delta`, going negative to `-1/20`: no lower bound is applied, but the
decrement is conditional on the timer being positive. -/
theorem decay_not_unconditional :
    W2.delta = 1/10 ∧
    W2.attack 0 = some ⟨5, 10, 1, 0⟩ ∧
    (decayPass W2).attack 0 = some ⟨5, 10, 1, 0⟩ ∧
    ((0 : ℚ) ≠ 0 - W2.delta) ∧
    (decayPass W2).attack 1 = some ⟨5, 10, 1, 1/20 - 1/10⟩ := by
  refine ⟨rfl, rfl, ?_, by norm_num [W2, emptyW], ?_⟩ <;>
    norm_num [decayPass, attackerQuery, decayStep, W2, emptyW, upd]

theorem decayPass_timer_conditional_witness :
    (decayPass W2).attack 0 = some ⟨5, 10, 1, 0⟩ := by
  have h := decayPass_timer_conditional W2 (by norm_num [W2, emptyW]) 0
    (by norm_num [attackerQuery, W2, emptyW]) ⟨5, 10, 1, 0⟩ rfl
  rw [h]
  norm_num

/-! Frame lemmas: fields not written by the attack passes. -/

theorem decayStep_position (delta : ℚ) (w : World) (a : Nat) :
    (decayStep delta w a).position = w.position := by
  unfold decayStep
  cases w.attack a with
  | none => rfl
  | some atk => by_cases ht : atk.timer > 0 <;> simp [ht]

theorem decayStep_health (delta : ℚ) (w : World) (a : Nat) :
    (decayStep delta w a).health = w.health := by
  unfold decayStep
  cases w.attack a with
  | none => rfl
  | some atk => by_cases ht : atk.timer > 0 <;> simp [ht]

theorem decayStep_knockback (delta : ℚ) (w : World) (a : Nat) :
    (decayStep delta w a).knockback = w.knockback := by
  unfold decayStep
  cases w.attack a with
  | none => rfl
  | some atk => by_cases ht : atk.timer > 0 <;> simp [ht]

theorem decayStep_events (delta : ℚ) (w : World) (a : Nat) :
    (decayStep delta w a).events = w.events := by
  unfold decayStep
  cases w.attack a with
  | none => rfl
  | some atk => by_cases ht : atk.timer > 0 <;> simp [ht]

theorem decayFold_position (delta : ℚ) : ∀ (l : List Nat) (w : World),
    (l.foldl (decayStep delta) w).position = w.position := by
  intro l
  induction l with
  | nil => intro w; rfl
  | cons b rest ih => intro w; rw [List.foldl_cons, ih, decayStep_position]

theorem decayFold_health (delta : ℚ) : ∀ (l : List Nat) (w : World),
    (l.foldl (decayStep delta) w).health = w.health := by
  intro l
  induction l with
  | nil => intro w; rfl
  | cons b rest ih => intro w; rw [List.foldl_cons, ih, decayStep_health]

theorem decayFold_knockback (delta : ℚ) : ∀ (l : List Nat) (w : World),
    (l.foldl (decayStep delta) w).knockback = w.knockback := by
  intro l
  induction l with
  | nil => intro w; rfl
  | cons b rest ih => intro w; rw [List.foldl_cons, ih, decayStep_knockback]

theorem decayFold_events (delta : ℚ) : ∀ (l : List Nat) (w : World),
    (l.foldl (decayStep delta) w).events = w.events := by
  intro l
  induction l with
  | nil => intro w; rfl
  | cons b rest ih => intro w; rw [List.foldl_cons, ih, decayStep_events]

theorem decayPass_position (w : World) : (decayPass w).position = w.position :=
  decayFold_position w.delta (attackerQuery w) w

theorem decayPass_health (w : World) : (decayPass w).health = w.health :=
  decayFold_health w.delta (attackerQuery w) w

theorem decayPass_knockback (w : World) : (decayPass w).knockback = w.knockback :=
  decayFold_knockback w.delta (attackerQuery w) w

theorem decayPass_events (w : World) : (decayPass w).events = w.events :=
  decayFold_events w.delta (attackerQuery w) w

theorem strike_position (ops : MathOps) (w : World) (a t : Nat) :
    (strike ops w a t).position = w.position := by
  unfold strike
  cases w.attack a <;> cases w.position a <;> cases w.position t <;>
    cases w.health t <;> rfl

theorem strike_attack_ne (ops : MathOps) (w : World) (a t e : Nat) (h : e ≠ a) :
    (strike ops w a t).attack e = w.attack e := by
  unfold strike
  cases w.attack a with
  | none => rfl
  | some atk =>
      cases w.position a with
      | none => rfl
      | some ap =>
          cases w.position t with
          | none => rfl
          | some tp =>
              cases w.health t with
              | none => rfl
              | some th => simp [h]

theorem attackStep_position (ops : MathOps) (ts : List Nat) (w : World) (a : Nat) :
    (attackStep ops ts w a).position = w.position := by
  unfold attackStep
  cases w.attack a with
  | none => rfl
  | some atk =>
      cases w.position a with
      | none => rfl
      | some p =>
          by_cases ht : atk.timer > 0
          · simp [ht]
          · simp only [ht, if_neg, if_false]
            cases findTarget ops w.position a p.x p.y atk.range ts with
            | none => rfl
            | some t => exact strike_position ops w a t

theorem attackStep_attack_ne (ops : MathOps) (ts : List Nat) (w : World) (a e : Nat)
    (h : e ≠ a) : (attackStep ops ts w a).attack e = w.attack e := by
  unfold attackStep
  cases w.attack a with
  | none => rfl
  | some atk =>
      cases w.position a with
      | none => rfl
      | some p =>
          by_cases ht : atk.timer > 0
          · simp [ht]
          · simp only [ht, if_neg, if_false]
            cases findTarget ops w.position a p.x p.y atk.range ts with
            | none => rfl
            | some t => exact strike_attack_ne ops w a t e h

theorem resolveFold_position (ops : MathOps) (ts : List Nat) :
    ∀ (l : List Nat) (w : World),
    (l.foldl (attackStep ops ts) w).position = w.position := by
  intro l
  induction l with
  | nil => intro w; rfl
  | cons b rest ih => intro w; rw [List.foldl_cons, ih, attackStep_position]

/-! Claim C4: postcondition of a single strike. -/

theorem strike_spec (ops : MathOps) (w : World) (a t : Nat) (atk : AttackC)
    (ap tp : PositionC) (th : HealthC)
    (hatk : w.attack a = some atk) (hap : w.position a = some ap)
    (htp : w.position t = some tp) (hth : w.health t = some th) :
    (strike ops w a t).health t = some ⟨th.current - atk.damage, th.max⟩ ∧
    (strike ops w a t).knockback t =
      some ⟨atk.damage * 10, ops.atan2 (tp.y - ap.y) (tp.x - ap.x), 1/5⟩ ∧
    (strike ops w a t).attack a = some { atk with timer := atk.cooldown } ∧
    (strike ops w a t).events =
      w.events ++ [GameEvent.monsterDamaged t a atk.damage tp] := by
  unfold strike
  rw [hatk, hap, htp, hth]
  refine ⟨by simp, by simp, by simp, rfl⟩

theorem attackStep_strikes (ops : MathOps) (ts : List Nat) (w : World) (a t : Nat)
    (atk : AttackC) (p : PositionC)
    (hatk : w.attack a = some atk) (hp : w.position a = some p)
    (hready : ¬ atk.timer > 0)
    (hft : findTarget ops w.position a p.x p.y atk.range ts = some t) :
    attackStep ops ts w a = strike ops w a t := by
  unfold attackStep
  rw [hatk, hp]
  simp [hready, hft]

/-- C4: postcondition of a strike.  For a lone ready attacker `a` (its
timer after the decay pass is `≤ 0`) whose target scan finds `t`, one run of
`attackSystem` subtracts exactly `Attack.damage` from `t`'s health (no
defense mitigation), installs `Knockback` on `t` with `force = damage*10`,
`direction = atan2(dy,dx)` from attacker to target and `remaining = 0.2`,
resets the attacker's timer to `Attack.cooldown`, and appends exactly one
`MONSTER_DAMAGED` event carrying the target, the attacker, the damage and
the target's position. -/
theorem attackSystem_strike_postcondition (ops : MathOps) (w : World) (a t : Nat)
    (atk : AttackC) (ap tp : PositionC) (th : HealthC)
    (hq : attackerQuery w = [a])
    (hatk : w.attack a = some atk) (hap : w.position a = some ap)
    (hready : (if atk.timer > 0 then atk.timer - w.delta else atk.timer) ≤ 0)
    (hft : findTarget ops w.position a ap.x ap.y atk.range (damageableQuery w) = some t)
    (htp : w.position t = some tp) (hth : w.health t = some th) :
    (attackSystem ops w).health t = some ⟨th.current - atk.damage, th.max⟩ ∧
    (attackSystem ops w).knockback t =
      some ⟨atk.damage * 10, ops.atan2 (tp.y - ap.y) (tp.x - ap.x), 1/5⟩ ∧
    (attackSystem ops w).attack a = some ⟨atk.damage, atk.range, atk.cooldown, atk.cooldown⟩ ∧
    (attackSystem ops w).events =
      w.events ++ [GameEvent.monsterDamaged t a atk.damage tp] := by
  have hmem : a ∈ attackerQuery w := by rw [hq]; exact List.mem_cons_self a []
  have hnd : (attackerQuery w).Nodup := by rw [hq]; simp
  set atk1 : AttackC :=
    { atk with timer := if atk.timer > 0 then atk.timer - w.delta else atk.timer } with hatk1
  have hw1atk : (decayPass w).attack a = some atk1 := by
    unfold decayPass
    exact decayFold_attack_mem w.delta a (attackerQuery w) hnd hmem w atk hatk
  have hw1pos : (decayPass w).position = w.position := decayPass_position w
  have hsys : attackSystem ops w = strike ops (decayPass w) a t := by
    unfold attackSystem
    rw [hq, List.foldl_cons, List.foldl_nil]
    refine attackStep_strikes ops (damageableQuery w) (decayPass w) a t atk1 ap
      hw1atk (by rw [hw1pos]; exact hap) ?_ ?_
    · rw [not_lt, hatk1]
      exact hready
    · rw [hw1pos, hatk1]
      exact hft
  obtain ⟨h1, h2, h3, h4⟩ := strike_spec ops (decayPass w) a t atk1 ap tp th
    hw1atk (by rw [hw1pos]; exact hap)
    (by rw [hw1pos]; exact htp) (by rw [decayPass_health w]; exact hth)
  rw [hsys]
  refine ⟨by rw [h1, hatk1], by rw [h2, hatk1], ?_, by rw [h4, decayPass_events w, hatk1]⟩
  rw [h3, hatk1]

/-! Claim C5: at most one MONSTER_DAMAGED event per attacker per frame. -/

/-- Whether an event is a `MONSTER_DAMAGED` event with the given attacker. -/
def isDamagedBy (a : Nat) : GameEvent → Bool
  | GameEvent.monsterDamaged _ att _ _ => att == a
  | _ => false

/-- The struck entity of a `MONSTER_DAMAGED` event. -/
def damagedEntity : GameEvent → Nat
  | GameEvent.monsterDamaged e _ _ _ => e
  | _ => 0

/-- The in-range test of the inner scan loop, as a boolean predicate. -/
def inRangeB (ops : MathOps) (pos : Nat → Option PositionC) (ax ay range : ℚ)
    (t : Nat) : Bool :=
  match pos t with
  | some p =>
      decide (ops.sqrt ((p.x - ax) * (p.x - ax) + (p.y - ay) * (p.y - ay)) ≤ range)
  | none => false

theorem findTarget_cons_self (ops : MathOps) (pos : Nat → Option PositionC)
    (attacker : Nat) (ax ay range : ℚ) (ts : List Nat) :
    findTarget ops pos attacker ax ay range (attacker :: ts) =
      findTarget ops pos attacker ax ay range ts := by
  simp only [findTarget]
  simp

theorem findTarget_cons_nopos (ops : MathOps) (pos : Nat → Option PositionC)
    (attacker : Nat) (ax ay range : ℚ) (t : Nat) (ts : List Nat)
    (hta : ¬ t = attacker) (hpt : pos t = none) :
    findTarget ops pos attacker ax ay range (t :: ts) =
      findTarget ops pos attacker ax ay range ts := by
  simp only [findTarget]
  rw [if_neg hta, hpt]

theorem findTarget_cons_pos (ops : MathOps) (pos : Nat → Option PositionC)
    (attacker : Nat) (ax ay range : ℚ) (t : Nat) (ts : List Nat) (p : PositionC)
    (hta : ¬ t = attacker) (hpt : pos t = some p) :
    findTarget ops pos attacker ax ay range (t :: ts) =
      if ops.sqrt ((p.x - ax) * (p.x - ax) + (p.y - ay) * (p.y - ay)) ≤ range then
        some t
      else findTarget ops pos attacker ax ay range ts := by
  simp only [findTarget]
  rw [if_neg hta, hpt]

/-- The scan loop returns the first list entry, in order, that is not the
attacker itself and whose distance to the attacker is within range. -/
theorem findTarget_eq_find (ops : MathOps) (pos : Nat → Option PositionC)
    (attacker : Nat) (ax ay range : ℚ) : ∀ (l : List Nat),
    findTarget ops pos attacker ax ay range l =
      l.find? (fun t => (t != attacker) && inRangeB ops pos ax ay range t) := by
  intro l
  induction l with
  | nil => rfl
  | cons t ts ih =>
      by_cases hta : t = attacker
      · subst hta
        rw [findTarget_cons_self, List.find?_cons_of_neg _ (by simp)]
        exact ih
      · cases hpt : pos t with
        | none =>
            rw [findTarget_cons_nopos ops pos attacker ax ay range t ts hta hpt,
              List.find?_cons_of_neg _ (by simp [inRangeB, hpt])]
            exact ih
        | some p =>
            rw [findTarget_cons_pos ops pos attacker ax ay range t ts p hta hpt]
            by_cases hin :
              ops.sqrt ((p.x - ax) * (p.x - ax) + (p.y - ay) * (p.y - ay)) ≤ range
            · rw [if_pos hin, List.find?_cons_of_pos _ (by simp [inRangeB, hpt, hta, hin])]
            · rw [if_neg hin, List.find?_cons_of_neg _ (by simp [inRangeB, hpt, hin])]
              exact ih

theorem attackStep_noop_cooldown (ops : MathOps) (ts : List Nat) (w : World) (a : Nat)
    (atk : AttackC) (hatk : w.attack a = some atk) (ht : atk.timer > 0) :
    attackStep ops ts w a = w := by
  unfold attackStep
  rw [hatk]
  cases w.position a with
  | none => rfl
  | some p => simp [ht]

theorem strike_noop_target (ops : MathOps) (w : World) (a t : Nat)
    (h : w.position t = none ∨ w.health t = none) :
    strike ops w a t = w := by
  unfold strike
  cases hatk : w.attack a with
  | none => rfl
  | some atk =>
      cases hap : w.position a with
      | none => rfl
      | some ap =>
          rcases h with h | h
          · rw [h]
          · rw [h]
            cases w.position t <;> rfl

/-- Case analysis of one resolution-loop iteration: either the event list is
untouched, or the iteration was a full strike and exactly one
`MONSTER_DAMAGED` event with this attacker was appended. -/
theorem attackStep_noop_noattack (ops : MathOps) (ts : List Nat) (w : World) (a : Nat)
    (hatk : w.attack a = none) : attackStep ops ts w a = w := by
  unfold attackStep
  rw [hatk]

theorem attackStep_noop_noposition (ops : MathOps) (ts : List Nat) (w : World) (a : Nat)
    (atk : AttackC) (hatk : w.attack a = some atk) (hp : w.position a = none) :
    attackStep ops ts w a = w := by
  unfold attackStep
  rw [hatk, hp]

theorem attackStep_noop_nofind (ops : MathOps) (ts : List Nat) (w : World) (a : Nat)
    (atk : AttackC) (p : PositionC) (hatk : w.attack a = some atk)
    (hp : w.position a = some p) (ht : ¬ atk.timer > 0)
    (hft : findTarget ops w.position a p.x p.y atk.range ts = none) :
    attackStep ops ts w a = w := by
  unfold attackStep
  rw [hatk, hp]
  simp [ht, hft]

/-- Case analysis of one resolution-loop iteration: either the event list is
untouched, or the iteration was a full strike and exactly one
`MONSTER_DAMAGED` event with this attacker was appended. -/
theorem attackStep_events_cases (ops : MathOps) (ts : List Nat) (w : World) (a : Nat) :
    (attackStep ops ts w a).events = w.events ∨
    ∃ atk p t tp, w.attack a = some atk ∧ atk.timer ≤ 0 ∧ w.position a = some p ∧
      findTarget ops w.position a p.x p.y atk.range ts = some t ∧
      w.position t = some tp ∧
      (attackStep ops ts w a).events =
        w.events ++ [GameEvent.monsterDamaged t a atk.damage tp] := by
  cases hatk : w.attack a with
  | none =>
      left
      rw [attackStep_noop_noattack ops ts w a hatk]
  | some atk =>
      cases hp : w.position a with
      | none =>
          left
          rw [attackStep_noop_noposition ops ts w a atk hatk hp]
      | some p =>
          by_cases ht : atk.timer > 0
          · left
            rw [attackStep_noop_cooldown ops ts w a atk hatk ht]
          · cases hft : findTarget ops w.position a p.x p.y atk.range ts with
            | none =>
                left
                rw [attackStep_noop_nofind ops ts w a atk p hatk hp ht hft]
            | some t =>
                have hstep : attackStep ops ts w a = strike ops w a t :=
                  attackStep_strikes ops ts w a t atk p hatk hp ht hft
                cases htp : w.position t with
                | none =>
                    left
                    rw [hstep, strike_noop_target ops w a t (Or.inl htp)]
                | some tp =>
                    cases hth : w.health t with
                    | none =>
                        left
                        rw [hstep, strike_noop_target ops w a t (Or.inr hth)]
                    | some th =>
                        right
                        obtain ⟨-, -, -, hev⟩ :=
                          strike_spec ops w a t atk p tp th hatk hp htp hth
                        exact ⟨atk, p, t, tp, rfl, not_lt.mp ht, rfl, hft, htp,
                          by rw [hstep, hev]⟩

/-- Event bookkeeping of the whole resolution pass, per attacker `a`:
the pass only appends events; among the appended events at most one is a
`MONSTER_DAMAGED` with attacker `a`; none appears unless `a` is in the
attacker list; and any such event records a full strike as characterized by
`attackStep_events_cases` against the world the pass started from. -/
theorem resolveFold_events (ops : MathOps) (ts : List Nat) (a : Nat) :
    ∀ (l : List Nat), l.Nodup → ∀ (w0 : World),
    ∃ ext, (l.foldl (attackStep ops ts) w0).events = w0.events ++ ext ∧
      (a ∉ l → ext.filter (isDamagedBy a) = []) ∧
      (ext.filter (isDamagedBy a)).length ≤ 1 ∧
      (∀ ev ∈ ext, isDamagedBy a ev = true →
        ∃ atk p t tp, w0.attack a = some atk ∧ atk.timer ≤ 0 ∧
          w0.position a = some p ∧
          findTarget ops w0.position a p.x p.y atk.range ts = some t ∧
          w0.position t = some tp ∧
          ev = GameEvent.monsterDamaged t a atk.damage tp) := by
  intro l
  induction l with
  | nil =>
      intro _ w0
      exact ⟨[], by simp, fun _ => rfl, by simp, by simp⟩
  | cons b rest ih =>
      intro hnd w0
      obtain ⟨hbr, hndr⟩ := List.nodup_cons.mp hnd
      obtain ⟨ext, hev, hnot, hlen, hcond⟩ := ih hndr (attackStep ops ts w0 b)
      rcases attackStep_events_cases ops ts w0 b with hstep |
        ⟨atk, p, t, tp, hatk, htm, hp, hft, htp, hstep⟩
      · refine ⟨ext, ?_, ?_, hlen, ?_⟩
        · rw [List.foldl_cons, hev, hstep]
        · intro hna
          exact hnot (fun hc => hna (List.mem_cons_of_mem b hc))
        · intro ev hevm hby
          by_cases hab : a = b
          · exfalso
            have hnil : ext.filter (isDamagedBy a) = [] := hnot (hab ▸ hbr)
            have hin : ev ∈ ext.filter (isDamagedBy a) := List.mem_filter.mpr ⟨hevm, hby⟩
            rw [hnil] at hin
            exact List.not_mem_nil ev hin
          · obtain ⟨atk, p, t, tp, h1, h2, h3, h4, h5, h6⟩ := hcond ev hevm hby
            rw [attackStep_attack_ne ops ts w0 b a hab] at h1
            rw [attackStep_position ops ts w0 b] at h3 h4 h5
            exact ⟨atk, p, t, tp, h1, h2, h3, h4, h5, h6⟩
      · refine ⟨GameEvent.monsterDamaged t b atk.damage tp :: ext, ?_, ?_, ?_, ?_⟩
        · rw [List.foldl_cons, hev, hstep, List.append_assoc, List.singleton_append]
        · intro hna
          have hanb : a ≠ b := fun hc => hna (hc ▸ List.mem_cons_self b rest)
          have hfb : isDamagedBy a (GameEvent.monsterDamaged t b atk.damage tp) = false := by
            simp [isDamagedBy]
            exact Ne.symm hanb
          rw [show List.filter (isDamagedBy a)
              (GameEvent.monsterDamaged t b atk.damage tp :: ext) =
              List.filter (isDamagedBy a) ext from by simp [List.filter_cons, hfb]]
          exact hnot (fun hc => hna (List.mem_cons_of_mem b hc))
        · by_cases hab : a = b
          · have hnil : ext.filter (isDamagedBy a) = [] := hnot (hab ▸ hbr)
            have hfb : isDamagedBy a (GameEvent.monsterDamaged t b atk.damage tp) = true := by
              simp [isDamagedBy, hab]
            rw [show List.filter (isDamagedBy a)
                (GameEvent.monsterDamaged t b atk.damage tp :: ext) =
                GameEvent.monsterDamaged t b atk.damage tp ::
                  List.filter (isDamagedBy a) ext from by simp [List.filter_cons, hfb],
              hnil]
            simp
          · have hfb : isDamagedBy a (GameEvent.monsterDamaged t b atk.damage tp) = false := by
              simp [isDamagedBy]
              exact fun hc => hab (hc.symm)
            rw [show List.filter (isDamagedBy a)
                (GameEvent.monsterDamaged t b atk.damage tp :: ext) =
                List.filter (isDamagedBy a) ext from by simp [List.filter_cons, hfb]]
            exact hlen
        · intro ev hevm hby
          rcases List.mem_cons.mp hevm with hev1 | hev2
          · have hab : b = a := by
              rw [hev1] at hby
              simpa [isDamagedBy] using hby
            subst hab
            exact ⟨atk, p, t, tp, hatk, htm, hp, hft, htp, hev1⟩
          · by_cases hab : a = b
            · exfalso
              have hnil : ext.filter (isDamagedBy a) = [] := hnot (hab ▸ hbr)
              have hin : ev ∈ ext.filter (isDamagedBy a) := List.mem_filter.mpr ⟨hev2, hby⟩
              rw [hnil] at hin
              exact List.not_mem_nil ev hin
            · obtain ⟨atk2, p2, t2, tp2, h1, h2, h3, h4, h5, h6⟩ := hcond ev hev2 hby
              rw [attackStep_attack_ne ops ts w0 b a hab] at h1
              rw [attackStep_position ops ts w0 b] at h3 h4 h5
              exact ⟨atk2, p2, t2, tp2, h1, h2, h3, h4, h5, h6⟩

/-- C5: for every attacker `a` and one run of `attackSystem`, at most one
`MONSTER_DAMAGED` event with that attacker is appended to `world.events`;
one is appended only if that attacker's timer is `≤ 0` entering the
resolution pass (i.e. after the decay pass); and the struck entity is the
first entry of the damageable query, in iteration order and skipping the
attacker itself, whose distance to the attacker is `≤ Attack.range`. -/
theorem attackSystem_one_strike_per_attacker (ops : MathOps) (w : World) (a : Nat)
    (hnd : w.entities.Nodup) :
    ∃ ext, (attackSystem ops w).events = w.events ++ ext ∧
      (ext.filter (isDamagedBy a)).length ≤ 1 ∧
      (∀ ev ∈ ext, isDamagedBy a ev = true →
        ∃ atk p, (decayPass w).attack a = some atk ∧ atk.timer ≤ 0 ∧
          w.position a = some p ∧
          ∃ t, (damageableQuery w).find?
              (fun c => (c != a) && inRangeB ops w.position p.x p.y atk.range c) =
                some t ∧
            damagedEntity ev = t) := by
  obtain ⟨ext, hev, hnot, hlen, hcond⟩ :=
    resolveFold_events ops (damageableQuery w) a (attackerQuery w)
      (hnd.filter _) (decayPass w)
  refine ⟨ext, ?_, hlen, ?_⟩
  · have hsys : attackSystem ops w =
        (attackerQuery w).foldl (attackStep ops (damageableQuery w)) (decayPass w) := rfl
    rw [hsys, hev, decayPass_events]
  · intro ev hevm hby
    obtain ⟨atk, p, t, tp, h1, h2, h3, h4, h5, h6⟩ := hcond ev hevm hby
    rw [decayPass_position] at h3 h4
    refine ⟨atk, p, h1, h2, h3, t, ?_, by rw [h6]; rfl⟩
    rw [← findTarget_eq_find]
    exact h4

/-- The scenario world of §8 of the specification: attacker `0` at the
origin with `range = 10`, `damage = 15`, `cooldown = 1`, `timer = 0`;
target `1` at `(5, 0)` with `Health{50,50}` and a (never consulted)
`Defense` of `20`. -/
def W4 : World :=
  { emptyW with
    entities := [0, 1]
    nextEntity := 2
    position := fun i =>
      if i = 0 then some ⟨0, 0⟩ else if i = 1 then some ⟨5, 0⟩ else none
    attack := fun i => if i = 0 then some ⟨15, 10, 1, 0⟩ else none
    health := fun i => if i = 1 then some ⟨50, 50⟩ else none
    defense := fun i => if i = 1 then some 20 else none }

theorem attackSystem_strike_postcondition_witness :
    (attackSystem testOps W4).health 1 = some ⟨35, 50⟩ ∧
    (attackSystem testOps W4).knockback 1 = some ⟨150, 0, 1/5⟩ ∧
    (attackSystem testOps W4).attack 0 = some ⟨15, 10, 1, 1⟩ ∧
    (attackSystem testOps W4).events = [GameEvent.monsterDamaged 1 0 15 ⟨5, 0⟩] := by
  obtain ⟨h1, h2, h3, h4⟩ := attackSystem_strike_postcondition testOps W4 0 1
    ⟨15, 10, 1, 0⟩ ⟨0, 0⟩ ⟨5, 0⟩ ⟨50, 50⟩
    (by norm_num [attackerQuery, W4, emptyW])
    rfl rfl (by norm_num)
    (by norm_num [findTarget, damageableQuery, W4, emptyW, testOps])
    rfl rfl
  refine ⟨?_, ?_, ?_, ?_⟩
  · rw [h1]; norm_num
  · rw [h2]; norm_num [testOps]
  · rw [h3]
  · rw [h4]; norm_num [W4, emptyW]

theorem attackSystem_one_strike_per_attacker_witness :
    ∃ ext, (attackSystem testOps W4).events = W4.events ++ ext ∧
      (ext.filter (isDamagedBy 0)).length ≤ 1 ∧
      (∀ ev ∈ ext, isDamagedBy 0 ev = true →
        ∃ atk p, (decayPass W4).attack 0 = some atk ∧ atk.timer ≤ 0 ∧
          W4.position 0 = some p ∧
          ∃ t, (damageableQuery W4).find?
              (fun c => (c != 0) && inRangeB testOps W4.position p.x p.y atk.range c) =
                some t ∧
            damagedEntity ev = t) :=
  attackSystem_one_strike_per_attacker testOps W4 0 (by norm_num [W4, emptyW])

/-! Claim C6: knockback decay and inertness. -/

theorem knockbackStep_knockback_ne (ops : MathOps) (delta : ℚ) (w : World) (b e : Nat)
    (h : e ≠ b) : (knockbackStep ops delta w b).knockback e = w.knockback e := by
  unfold knockbackStep
  cases w.knockback b with
  | none => rfl
  | some kb =>
      by_cases hr : kb.remaining - delta > 0
      · simp only [hr]
        cases w.position b with
        | none => simp [h]
        | some p => simp [h]
      · simp only [hr]
        simp [h]

theorem knockbackStep_position_ne (ops : MathOps) (delta : ℚ) (w : World) (b e : Nat)
    (h : e ≠ b) : (knockbackStep ops delta w b).position e = w.position e := by
  unfold knockbackStep
  cases w.knockback b with
  | none => rfl
  | some kb =>
      by_cases hr : kb.remaining - delta > 0
      · simp only [hr]
        cases w.position b with
        | none => simp
        | some p => simp [h]
      · simp only [hr]
        simp

/-- Effect of one knockback-loop iteration on its own entity. -/
theorem knockbackStep_self (ops : MathOps) (delta : ℚ) (w : World) (e : Nat)
    (kb : KnockbackC) (p : PositionC)
    (hkb : w.knockback e = some kb) (hp : w.position e = some p) :
    (knockbackStep ops delta w e).knockback e =
      some (if kb.remaining - delta > 0 then
          ⟨kb.force * (9/10), kb.direction, kb.remaining - delta⟩
        else ⟨kb.force, kb.direction, kb.remaining - delta⟩) ∧
    (knockbackStep ops delta w e).position e =
      (if kb.remaining - delta > 0 then
          some ⟨p.x + ops.cos kb.direction * kb.force * delta,
            p.y + ops.sin kb.direction * kb.force * delta⟩
        else some p) := by
  unfold knockbackStep
  rw [hkb]
  by_cases hr : kb.remaining - delta > 0
  · constructor <;> simp [hr, hp, upd]
  · constructor <;> simp [hr, hp, upd]

theorem knockFold_ne (ops : MathOps) (delta : ℚ) (e : Nat) :
    ∀ (l : List Nat), e ∉ l → ∀ (w : World),
    (l.foldl (knockbackStep ops delta) w).knockback e = w.knockback e ∧
    (l.foldl (knockbackStep ops delta) w).position e = w.position e := by
  intro l
  induction l with
  | nil => intro _ w; exact ⟨rfl, rfl⟩
  | cons b rest ih =>
      intro hnm w
      have hne : e ≠ b := fun hc => hnm (hc ▸ List.mem_cons_self b rest)
      obtain ⟨h1, h2⟩ := ih (fun hc => hnm (List.mem_cons_of_mem b hc))
        (knockbackStep ops delta w b)
      rw [List.foldl_cons]
      exact ⟨h1.trans (knockbackStep_knockback_ne ops delta w b e hne),
        h2.trans (knockbackStep_position_ne ops delta w b e hne)⟩

theorem knockFold_mem (ops : MathOps) (delta : ℚ) (e : Nat) :
    ∀ (l : List Nat), l.Nodup → e ∈ l →
    ∀ (w : World) (kb : KnockbackC) (p : PositionC),
    w.knockback e = some kb → w.position e = some p →
    (l.foldl (knockbackStep ops delta) w).knockback e =
      some (if kb.remaining - delta > 0 then
          ⟨kb.force * (9/10), kb.direction, kb.remaining - delta⟩
        else ⟨kb.force, kb.direction, kb.remaining - delta⟩) ∧
    (l.foldl (knockbackStep ops delta) w).position e =
      (if kb.remaining - delta > 0 then
          some ⟨p.x + ops.cos kb.direction * kb.force * delta,
            p.y + ops.sin kb.direction * kb.force * delta⟩
        else some p) := by
  intro l
  induction l with
  | nil => intro _ hmem; exact absurd hmem (List.not_mem_nil e)
  | cons b rest ih =>
      intro hnd hmem w kb p hkb hp
      obtain ⟨hbr, hndr⟩ := List.nodup_cons.mp hnd
      rw [List.foldl_cons]
      by_cases heb : e = b
      · subst heb
        obtain ⟨h1, h2⟩ := knockbackStep_self ops delta w e kb p hkb hp
        obtain ⟨h3, h4⟩ := knockFold_ne ops delta e rest hbr (knockbackStep ops delta w e)
        exact ⟨h3.trans h1, h4.trans h2⟩
      · have hmr : e ∈ rest := by
          rcases List.mem_cons.mp hmem with hc | hc
          · exact absurd hc heb
          · exact hc
        exact ih hndr hmr (knockbackStep ops delta w b) kb p
          ((knockbackStep_knockback_ne ops delta w b e heb).trans hkb)
          ((knockbackStep_position_ne ops delta w b e heb).trans hp)

/-- C6 amended: for an entity carrying `Knockback` and `Position`, one
`knockbackSystem` run always decrements `remaining` by `delta`.  When the
decremented remaining is still positive the force is multiplied by `0.9`
(a strict decrease whenever the force is positive) and the position is
displaced; when the decremented remaining is `≤ 0` — in particular whenever
`remaining ≤ 0` entered the run, since `delta ≥ 0` — the entity is inert:
its force and position are left exactly as they were. -/
theorem knockbackSystem_step_spec (ops : MathOps) (w : World) (e : Nat)
    (kb : KnockbackC) (p : PositionC) (hnd : w.entities.Nodup)
    (he : e ∈ w.entities) (hkb : w.knockback e = some kb) (hp : w.position e = some p) :
    (kb.remaining - w.delta > 0 →
        (knockbackSystem ops w).knockback e =
          some ⟨kb.force * (9/10), kb.direction, kb.remaining - w.delta⟩ ∧
        (knockbackSystem ops w).position e =
          some ⟨p.x + ops.cos kb.direction * kb.force * w.delta,
            p.y + ops.sin kb.direction * kb.force * w.delta⟩ ∧
        (0 < kb.force → kb.force * (9/10) < kb.force)) ∧
    (kb.remaining - w.delta ≤ 0 →
        (knockbackSystem ops w).knockback e =
          some ⟨kb.force, kb.direction, kb.remaining - w.delta⟩ ∧
        (knockbackSystem ops w).position e = some p) := by
  have hq : e ∈ knockbackQuery w := by
    refine List.mem_filter.mpr ⟨he, ?_⟩
    rw [hkb, hp]
    rfl
  obtain ⟨h1, h2⟩ := knockFold_mem ops w.delta e (knockbackQuery w)
    (hnd.filter _) hq w kb p hkb hp
  constructor
  · intro hr
    rw [if_pos hr] at h1 h2
    refine ⟨h1, h2, fun hf => ?_⟩
    nlinarith
  · intro hr
    have hr2 : ¬ kb.remaining - w.delta > 0 := not_lt.mpr hr
    rw [if_neg hr2] at h1 h2
    exact ⟨h1, h2⟩

/-- World with one knocked-back entity `0`: `force = 100`, `direction = 0`,
`remaining = 1/20`, while the frame delta is `1/10`. -/
def W6 : World :=
  { emptyW with
    entities := [0]
    nextEntity := 1
    position := fun i => if i = 0 then some ⟨0, 0⟩ else none
    knockback := fun i => if i = 0 then some ⟨100, 0, 1/20⟩ else none }

/-- C6 counterexample: entity `0` enters the run with `remaining = 1/20 > 0`,
yet after the run its force is still `100` — not strictly decreased —
because the code decrements `remaining` first (`1/20 - 1/10 ≤ 0`) and then
skips both the displacement and the `×0.9` decay. -/
theorem knockback_no_decay_at_boundary :
    W6.knockback 0 = some ⟨100, 0, 1/20⟩ ∧ ((0 : ℚ) < 1/20) ∧ W6.delta = 1/10 ∧
    (knockbackSystem testOps W6).knockback 0 = some ⟨100, 0, 1/20 - 1/10⟩ ∧
    (knockbackSystem testOps W6).position 0 = some ⟨0, 0⟩ := by
  refine ⟨rfl, by norm_num, rfl, ?_, ?_⟩ <;>
    norm_num [knockbackSystem, knockbackQuery, knockbackStep, W6, emptyW, upd]

theorem knockbackSystem_step_spec_witness :
    ((1/20 : ℚ) - W6.delta > 0 →
        (knockbackSystem testOps W6).knockback 0 =
          some ⟨100 * (9/10), 0, 1/20 - W6.delta⟩ ∧
        (knockbackSystem testOps W6).position 0 =
          some ⟨0 + testOps.cos 0 * 100 * W6.delta, 0 + testOps.sin 0 * 100 * W6.delta⟩ ∧
        ((0 : ℚ) < 100 → (100 : ℚ) * (9/10) < 100)) ∧
    ((1/20 : ℚ) - W6.delta ≤ 0 →
        (knockbackSystem testOps W6).knockback 0 = some ⟨100, 0, 1/20 - W6.delta⟩ ∧
        (knockbackSystem testOps W6).position 0 = some ⟨0, 0⟩) :=
  knockbackSystem_step_spec testOps W6 0 ⟨100, 0, 1/20⟩ ⟨0, 0⟩
    (by norm_num [W6, emptyW]) (by norm_num [W6, emptyW]) rfl rfl

/-! Claim C8: stat scaling formula and monotonicity. -/

theorem floorScale_mono (b r : ℚ) (hb : 0 ≤ b) (hr : 0 ≤ r) (l1 l2 : ℤ)
    (h : l1 ≤ l2) :
    ⌊b * (1 + ((l1 : ℚ) - 1) * r)⌋ ≤ ⌊b * (1 + ((l2 : ℚ) - 1) * r)⌋ := by
  apply Int.floor_le_floor
  have hc : (l1 : ℚ) ≤ l2 := by exact_mod_cast h
  have key : 0 ≤ b * (r * ((l2 : ℚ) - l1)) :=
    mul_nonneg hb (mul_nonneg hr (sub_nonneg.mpr hc))
  nlinarith [key]

/-- C8: for every type index in `{0,1,2,3}` and all levels `1 ≤ l1 ≤ l2`,
`calculateMonsterStats` returns exactly the base stats scaled by the five
fixed curves (health `×(1+(l−1)·0.5)`, attack and defense `×(1+(l−1)·0.3)`,
speed `×(1+(l−1)·0.1)`, radius `×(1+(l−1)·0.2)`), floored to integers; being
a Lean function it is pure and deterministic, and every stat is monotone
non-decreasing in the level. -/
theorem calculateMonsterStats_spec (t : ℤ) (ht : t = 0 ∨ t = 1 ∨ t = 2 ∨ t = 3)
    (l1 l2 : ℤ) (hl1 : 1 ≤ l1) (hl : l1 ≤ l2) :
    ∃ b s1 s2, BASE_MONSTER_STATS t = some b ∧
      calculateMonsterStats t l1 = some s1 ∧ calculateMonsterStats t l2 = some s2 ∧
      s1 = ⟨⌊(b.health : ℚ) * (1 + ((l1 : ℚ) - 1) * (1/2))⌋,
            ⌊(b.attack : ℚ) * (1 + ((l1 : ℚ) - 1) * (3/10))⌋,
            ⌊(b.defense : ℚ) * (1 + ((l1 : ℚ) - 1) * (3/10))⌋,
            ⌊(b.speed : ℚ) * (1 + ((l1 : ℚ) - 1) * (1/10))⌋,
            ⌊(b.radius : ℚ) * (1 + ((l1 : ℚ) - 1) * (1/5))⌋⟩ ∧
      s1.health ≤ s2.health ∧ s1.attack ≤ s2.attack ∧ s1.defense ≤ s2.defense ∧
      s1.speed ≤ s2.speed ∧ s1.radius ≤ s2.radius := by
  rcases ht with h | h | h | h <;> subst h
  · refine ⟨⟨100, 15, 5, 120, 25⟩, _, _, rfl, rfl, rfl, rfl, ?_, ?_, ?_, ?_, ?_⟩ <;>
      exact floorScale_mono _ _ (by norm_num) (by norm_num) l1 l2 hl
  · refine ⟨⟨120, 10, 10, 100, 25⟩, _, _, rfl, rfl, rfl, rfl, ?_, ?_, ?_, ?_, ?_⟩ <;>
      exact floorScale_mono _ _ (by norm_num) (by norm_num) l1 l2 hl
  · refine ⟨⟨150, 8, 15, 80, 25⟩, _, _, rfl, rfl, rfl, rfl, ?_, ?_, ?_, ?_, ?_⟩ <;>
      exact floorScale_mono _ _ (by norm_num) (by norm_num) l1 l2 hl
  · refine ⟨⟨80, 12, 8, 140, 25⟩, _, _, rfl, rfl, rfl, rfl, ?_, ?_, ?_, ?_, ?_⟩ <;>
      exact floorScale_mono _ _ (by norm_num) (by norm_num) l1 l2 hl

theorem calculateMonsterStats_spec_witness :
    ∃ b s1 s2, BASE_MONSTER_STATS 0 = some b ∧
      calculateMonsterStats 0 1 = some s1 ∧ calculateMonsterStats 0 3 = some s2 ∧
      s1 = ⟨⌊(b.health : ℚ) * (1 + ((1 : ℚ) - 1) * (1/2))⌋,
            ⌊(b.attack : ℚ) * (1 + ((1 : ℚ) - 1) * (3/10))⌋,
            ⌊(b.defense : ℚ) * (1 + ((1 : ℚ) - 1) * (3/10))⌋,
            ⌊(b.speed : ℚ) * (1 + ((1 : ℚ) - 1) * (1/10))⌋,
            ⌊(b.radius : ℚ) * (1 + ((1 : ℚ) - 1) * (1/5))⌋⟩ ∧
      s1.health ≤ s2.health ∧ s1.attack ≤ s2.attack ∧ s1.defense ≤ s2.defense ∧
      s1.speed ≤ s2.speed ∧ s1.radius ≤ s2.radius :=
  calculateMonsterStats_spec 0 (Or.inl rfl) 1 3 (by norm_num) (by norm_num)

/-! Claim C9: no validation of construction inputs. -/

/-- C9 amended: the creation interface performs no input validation.  For
any in-table type index, any level whatsoever — including negative levels —
is accepted: the call returns `ok`, the new entity is pushed onto
`playerEntities` and a spawn event is emitted.  For a type index outside the
table the call throws (`error`) only at the stats lookup, after the entity
id has already been allocated into the world. -/
theorem createPlayerMonster_no_validation (w : World) (x y : ℚ) (level : ℤ)
    (t tbad : ℤ) (ht : t = 0 ∨ t = 1 ∨ t = 2 ∨ t = 3)
    (htbad : ¬(tbad = 0 ∨ tbad = 1 ∨ tbad = 2 ∨ tbad = 3)) :
    (∃ w2 e, createPlayerMonster w x y t level = Except.ok (w2, e) ∧
        w2.playerEntities = w.playerEntities ++ [e] ∧
        w2.monster e = some ⟨t, level⟩ ∧
        w2.events = w.events ++ [GameEvent.monsterSpawned e ⟨x, y⟩ t level true]) ∧
    (createPlayerMonster w x y tbad level = Except.error (addEntity w).1 ∧
        (addEntity w).1.entities = w.entities ++ [w.nextEntity]) := by
  constructor
  · rcases ht with h | h | h | h <;> subst h <;>
      exact ⟨_, _, rfl, rfl, by simp, rfl⟩
  · push_neg at htbad
    obtain ⟨h0, h1, h2, h3⟩ := htbad
    have hbase : BASE_MONSTER_STATS tbad = none := by
      unfold BASE_MONSTER_STATS
      rw [if_neg h0, if_neg h1, if_neg h2, if_neg h3]
    have hcalc : calculateMonsterStats tbad level = none := by
      unfold calculateMonsterStats
      rw [hbase]
      rfl
    constructor
    · unfold createPlayerMonster
      rw [hcalc]
    · rfl

/-- C9 counterexample to the claim as stated: a negative level (`-1`) is not
rejected — the monster is fully constructed (here with `Health.current = 0`,
since `floor(100·(1+(−2)·0.5)) = 0`), pushed onto `playerEntities` and thus
handed to the per-frame pipeline; an unknown type index (`9`) does throw,
but only after the entity id was already allocated into the world, not at
the interface boundary. -/
theorem createPlayerMonster_accepts_bad_inputs :
    ((createPlayerMonster emptyW 0 0 0 (-1)).toOption.map
        (fun r => (r.1.health r.2, r.1.playerEntities, r.1.entities))) =
      some (some ⟨0, 0⟩, [0], [0]) ∧
    createPlayerMonster emptyW 0 0 9 1 = Except.error (addEntity emptyW).1 ∧
    (addEntity emptyW).1.entities = [0] := by
  refine ⟨?_, rfl, rfl⟩
  norm_num [createPlayerMonster, addEntity, calculateMonsterStats, BASE_MONSTER_STATS,
    emptyW, upd, Except.toOption]

theorem createPlayerMonster_no_validation_witness :
    (∃ w2 e, createPlayerMonster emptyW 0 0 0 (-1) = Except.ok (w2, e) ∧
        w2.playerEntities = emptyW.playerEntities ++ [e] ∧
        w2.monster e = some ⟨0, -1⟩ ∧
        w2.events = emptyW.events ++ [GameEvent.monsterSpawned e ⟨0, 0⟩ 0 (-1) true]) ∧
    (createPlayerMonster emptyW 0 0 9 (-1) = Except.error (addEntity emptyW).1 ∧
        (addEntity emptyW).1.entities = emptyW.entities ++ [emptyW.nextEntity]) :=
  createPlayerMonster_no_validation emptyW 0 0 (-1) 0 9 (by norm_num) (by norm_num)

/-! Claim C3: the spawned monster type ignores `config.monsterTypes`. -/

theorem BASE_of_bounds (m : ℤ) (h0 : 0 ≤ m) (h3 : m ≤ 3) :
    ∃ b, BASE_MONSTER_STATS m = some b := by
  interval_cases m <;> exact ⟨_, rfl⟩

theorem createEnemyMonster_ok (w : World) (x y : ℚ) (mtype level : ℤ)
    (st : MonsterStats) (h : calculateMonsterStats mtype level = some st) :
    ∃ w2, createEnemyMonster w x y mtype level = Except.ok (w2, w.nextEntity) ∧
      w2.monster w.nextEntity = some ⟨mtype, level⟩ ∧
      w2.events = w.events ++
        [GameEvent.monsterSpawned w.nextEntity ⟨x, y⟩ mtype level false] := by
  unfold createEnemyMonster
  rw [h]
  refine ⟨_, rfl, ?_, rfl⟩
  simp [addEntity, upd]

/-- C3 amended: when `spawnSystem` fires, the monster type of the created
enemy is `⌊typeRoll × 4⌋` with a hard-coded `4` — drawn uniformly from the
four built-in types, for every world and hence independent of
`world.config.monsterTypes`. -/
theorem spawnSystem_type_hardcoded (w : World) (r1 r2 r3 r4 r5 r6 : ℚ)
    (rest : List ℚ) (hfire : w.spawnTimer - w.delta ≤ 0)
    (h5a : 0 ≤ r5) (h5b : r5 < 1) :
    ∃ w2, spawnSystem (r1 :: r2 :: r3 :: r4 :: r5 :: r6 :: rest) w = some (w2, rest) ∧
      w2.monster w.nextEntity = some ⟨⌊r5 * 4⌋, spawnLevel r6⟩ := by
  have hm0 : (0 : ℤ) ≤ ⌊r5 * 4⌋ := by
    apply Int.le_floor.mpr
    push_cast
    nlinarith
  have hm3 : ⌊r5 * 4⌋ ≤ 3 := by
    have hlt : ⌊r5 * 4⌋ < 4 := by
      apply Int.floor_lt.mpr
      push_cast
      nlinarith
    omega
  obtain ⟨b, hb⟩ := BASE_of_bounds ⌊r5 * 4⌋ hm0 hm3
  obtain ⟨st, hst⟩ : ∃ st, calculateMonsterStats ⌊r5 * 4⌋ (spawnLevel r6) = some st := by
    unfold calculateMonsterStats
    rw [hb]
    exact ⟨_, rfl⟩
  unfold spawnSystem
  simp only [randNext]
  rw [if_pos hfire]
  by_cases h2 : r2 < 1/2
  · rw [if_pos h2]
    obtain ⟨w2, hok, hmon, hev⟩ := createEnemyMonster_ok
      { w with spawnTimer :=
          ({ w with spawnTimer := w.spawnTimer - w.delta }).config.baseSpawnInterval *
            (4/5 + r1 * (2/5)) }
      (r3 * w.config.arenaWidth) (if r4 < 1/2 then (20 : ℚ) else w.config.arenaHeight - 20)
      ⌊r5 * 4⌋ (spawnLevel r6) st hst
    rw [hok]
    exact ⟨w2, rfl, hmon⟩
  · rw [if_neg h2]
    obtain ⟨w2, hok, hmon, hev⟩ := createEnemyMonster_ok
      { w with spawnTimer :=
          ({ w with spawnTimer := w.spawnTimer - w.delta }).config.baseSpawnInterval *
            (4/5 + r1 * (2/5)) }
      (if r3 < 1/2 then (20 : ℚ) else w.config.arenaWidth - 20) (r4 * w.config.arenaHeight)
      ⌊r5 * 4⌋ (spawnLevel r6) st hst
    rw [hok]
    exact ⟨w2, rfl, hmon⟩

/-- World about to spawn (`spawnTimer = delta = 1/10`) whose configuration
asks for only `2` monster types. -/
def W3 : World :=
  { emptyW with
    spawnTimer := 1/10
    config := { DEFAULT_CONFIG with monsterTypes := 2 } }

/-- C3 counterexample: with `config.monsterTypes = 2` and a type roll of
`9/10`, the claim predicts type `⌊0.9 × 2⌋ = 1`, but the code spawns type
`⌊0.9 × 4⌋ = 3` — the range is hard-coded to 4, not read from the config. -/
theorem spawn_type_ignores_config :
    W3.config.monsterTypes = 2 ∧
    ((spawnSystem [0, 0, 0, 0, 9/10, 0] W3).map
        (fun res => res.1.monster W3.nextEntity)) = some (some ⟨3, 1⟩) ∧
    (⌊(9/10 : ℚ) * (W3.config.monsterTypes : ℚ)⌋ = 1) ∧ ((3 : ℤ) ≠ 1) := by
  refine ⟨rfl, ?_, ?_, by norm_num⟩
  · norm_num [spawnSystem, randNext, createEnemyMonster, addEntity, calculateMonsterStats,
      BASE_MONSTER_STATS, spawnLevel, upd, W3, emptyW, DEFAULT_CONFIG,
      Int.floor_eq_iff]
  · rw [show W3.config.monsterTypes = 2 from rfl]
    norm_num [Int.floor_eq_iff]

theorem spawnSystem_type_hardcoded_witness :
    ∃ w2, spawnSystem [0, 0, 0, 0, 9/10, 0] W3 = some (w2, []) ∧
      w2.monster W3.nextEntity = some ⟨⌊(9/10 : ℚ) * 4⌋, spawnLevel 0⟩ :=
  spawnSystem_type_hardcoded W3 0 0 0 0 (9/10) 0 []
    (by norm_num [W3, emptyW]) (by norm_num) (by norm_num)

/-! Claim C10: no faction filter in attack-target selection. -/

/-- Two co-located player-controlled monsters; only `0` carries `Attack`. -/
def W10p : World :=
  { emptyW with
    entities := [0, 1]
    nextEntity := 2
    position := fun i => if i ≤ 1 then some ⟨0, 0⟩ else none
    attack := fun i => if i = 0 then some ⟨5, 10, 1, 0⟩ else none
    health := fun i =>
      if i = 0 then some ⟨40, 40⟩ else if i = 1 then some ⟨45, 45⟩ else none
    playerControlled := fun i => decide (i ≤ 1)
    playerEntities := [0, 1] }

/-- Two co-located enemy monsters; only `0` carries `Attack`. -/
def W10e : World :=
  { emptyW with
    entities := [0, 1]
    nextEntity := 2
    position := fun i => if i ≤ 1 then some ⟨0, 0⟩ else none
    attack := fun i => if i = 0 then some ⟨5, 10, 1, 0⟩ else none
    health := fun i =>
      if i = 0 then some ⟨40, 40⟩ else if i = 1 then some ⟨45, 45⟩ else none
    enemy := fun i => decide (i ≤ 1) }

/-- C10: the candidate set of `attackSystem` is the damageable query minus
the attacker itself, with no faction filter: for any square root with
`sqrt 0 = 0`, a player-controlled attacker strikes the co-located
player-controlled monster (and an enemy strikes the co-located enemy),
because that entity is the first in-range candidate in query order. -/
theorem attackSystem_no_faction_filter (ops : MathOps) (hsq : ops.sqrt 0 = 0) :
    (W10p.playerControlled 0 = true ∧ W10p.playerControlled 1 = true ∧
      (attackSystem ops W10p).health 1 = some ⟨40, 45⟩ ∧
      (attackSystem ops W10p).events = [GameEvent.monsterDamaged 1 0 5 ⟨0, 0⟩]) ∧
    (W10e.enemy 0 = true ∧ W10e.enemy 1 = true ∧
      (attackSystem ops W10e).health 1 = some ⟨40, 45⟩ ∧
      (attackSystem ops W10e).events = [GameEvent.monsterDamaged 1 0 5 ⟨0, 0⟩]) := by
  refine ⟨⟨rfl, rfl, ?_, ?_⟩, ⟨rfl, rfl, ?_, ?_⟩⟩ <;>
    norm_num [attackSystem, attackerQuery, damageableQuery, decayPass, decayStep,
      attackStep, strike, findTarget, W10p, W10e, emptyW, upd, hsq]

theorem attackSystem_no_faction_filter_witness :
    (W10p.playerControlled 0 = true ∧ W10p.playerControlled 1 = true ∧
      (attackSystem testOps W10p).health 1 = some ⟨40, 45⟩ ∧
      (attackSystem testOps W10p).events = [GameEvent.monsterDamaged 1 0 5 ⟨0, 0⟩]) ∧
    (W10e.enemy 0 = true ∧ W10e.enemy 1 = true ∧
      (attackSystem testOps W10e).health 1 = some ⟨40, 45⟩ ∧
      (attackSystem testOps W10e).events = [GameEvent.monsterDamaged 1 0 5 ⟨0, 0⟩]) :=
  attackSystem_no_faction_filter testOps (by norm_num [testOps])
